import Mathlib

/-!
Verification development for the IANUACalDav repository: a shallow embedding
of the scraper (`src/scraper/scraper.py`), the flyer-text heuristics
(`src/pdf_extractor.py`) and the calendar server (`src/caldav_server/server.py`),
together with theorems settling the behavioural claims about them.

Python strings are embedded as `List Char`.  String-class methods
(`strip`, `split`, `isupper`, `lower`, …) and the regular expressions used by
the code are translated in their ASCII semantics, which covers every character
class the source manipulates (`\w`, `\s`, `[A-Z]`, `[^)]`, digits).
Network fetches and PDF text extraction are external effects and enter the
embedding as oracle parameters.
-/

namespace IANUACalDav

/-- Embedded Python string: a list of characters. -/
abbrev Str := List Char

/-- Python `str.strip()` / regex `\s` whitespace set (ASCII part):
space, tab, newline, carriage return, vertical tab, form feed. -/
def pyIsSpace (c : Char) : Bool :=
  c = ' ' || c = '\t' || c = '\n' || c = '\r' || c = '\x0b' || c = '\x0c'

/-- Python `str.strip()`: drop whitespace from both ends. -/
def pyStrip (s : Str) : Str :=
  ((s.dropWhile pyIsSpace).reverse.dropWhile pyIsSpace).reverse

/-- Python `str.split(sep)` for a one-character separator.
`splitOnChar c s` never returns `[]` (splitting the empty string gives `[[]]`). -/
def splitOnChar (sep : Char) : Str → List Str
  | [] => [[]]
  | c :: cs =>
    if c = sep then [] :: splitOnChar sep cs
    else
      (c :: (splitOnChar sep cs).headD []) :: (splitOnChar sep cs).tail

/-- Python `'\n'.join(parts)` generalised to any separator character. -/
def joinChar (sep : Char) : List Str → Str
  | [] => []
  | [l] => l
  | l :: ls => l ++ sep :: joinChar sep ls

/-- Index of the first occurrence of `needle` in `hay` (Python `str.find`,
restricted to the found case), `none` if absent. -/
def strFind (needle : Str) : Str → Option Nat
  | [] => if needle.isEmpty then some 0 else none
  | c :: cs =>
    if needle.isPrefixOf (c :: cs) then some 0
    else (strFind needle cs).map (· + 1)

/-- Python `needle in hay` substring test. -/
def containsSub (needle hay : Str) : Bool :=
  (strFind needle hay).isSome

/-- Numeric value of a digit string. -/
def digitsToNat (s : Str) : Nat :=
  s.foldl (fun n c => n * 10 + (c.toNat - 48)) 0

/-- Non-empty and consisting of decimal digits only. -/
def allDigits (s : Str) : Bool :=
  !s.isEmpty && s.all Char.isDigit

/-- Python `str.split()` with no argument: whitespace-run-separated words. -/
def pyWords (s : Str) : List Str :=
  ((splitOnChar ' ' (s.map (fun c => if pyIsSpace c then ' ' else c)))).filter
    (fun w => !w.isEmpty)

/-! ## Feed assembler: `CalDavServer._create_slug` (server.py lines 40-46) -/

/-- Python regex `\w` (ASCII part): alphanumeric or underscore. -/
def pyIsWordChar (c : Char) : Bool :=
  c.isAlphanum || c = '_'

/-- Character kept by `re.sub(r'[^\w\s-]', '', clean)`. -/
def keepSlugChar (c : Char) : Bool :=
  pyIsWordChar c || pyIsSpace c || c = '-'

/-- One attempt of the pattern `\s*\([^)]*\)` anchored at the head of `s`:
greedily consume whitespace, require `'('`, consume up to the first `')'`
inclusive; return the remainder on success.  (Backtracking over `\s*` cannot
help: shortening the whitespace run leaves a whitespace character where `'('`
is required, and `[^)]*` greedily followed by `')'` stops at the first `')'`.) -/
def matchParenAt (s : Str) : Option Str :=
  match s.dropWhile pyIsSpace with
  | [] => none
  | c :: rest =>
    if c = '(' then
      match rest.dropWhile (· != ')') with
      | [] => none
      | c2 :: tail => if c2 = ')' then some tail else none
    else none

/-- Fuelled scan implementing `re.sub(r'\s*\([^)]*\)', '', subscription)`:
at each position try the pattern; on a match drop it and continue after it,
otherwise keep the character and move on.  Each match consumes at least two
characters, so fuel `s.length` is always sufficient. -/
def removeParensAux : Nat → Str → Str
  | 0, s => s
  | _ + 1, [] => []
  | fuel + 1, c :: cs =>
    match matchParenAt (c :: cs) with
    | some rest => removeParensAux fuel rest
    | none => c :: removeParensAux fuel cs

/-- `re.sub(r'\s*\([^)]*\)', '', subscription)`. -/
def removeParens (s : Str) : Str :=
  removeParensAux s.length s

/-- UTF-8 bytes of a character (needed by `urllib.parse.quote`). -/
def utf8Bytes (c : Char) : List Nat :=
  let n := c.toNat
  if n < 0x80 then [n]
  else if n < 0x800 then [0xC0 + n / 64, 0x80 + n % 64]
  else if n < 0x10000 then [0xE0 + n / 4096, 0x80 + n / 64 % 64, 0x80 + n % 64]
  else [0xF0 + n / 262144, 0x80 + n / 4096 % 64, 0x80 + n / 64 % 64, 0x80 + n % 64]

/-- Uppercase hexadecimal digit, as produced by `urllib.parse.quote`. -/
def hexDigitChar (n : Nat) : Char :=
  if n < 10 then Char.ofNat (48 + n) else Char.ofNat (55 + n)

/-- Characters `urllib.parse.quote` never encodes (`safe=''`):
ASCII letters, digits, and `_.-~`. -/
def quoteSafe (c : Char) : Bool :=
  c.isAlpha || c.isDigit || c = '_' || c = '.' || c = '-' || c = '~'

/-- Percent-encoding of a single character under `quote(·, safe='')`. -/
def pctEncodeChar (c : Char) : Str :=
  if quoteSafe c then [c]
  else (utf8Bytes c).flatMap (fun b => ['%', hexDigitChar (b / 16), hexDigitChar (b % 16)])

/-- `urllib.parse.quote(slug, safe='')`. -/
def pyQuote (s : Str) : Str :=
  s.flatMap pctEncodeChar

/-- `CalDavServer._create_slug` (server.py lines 40-46):
`clean = re.sub(r'\s*\([^)]*\)', '', subscription)` then
`re.sub(r'[^\w\s-]', '', clean).strip().replace(' ', '-').lower()` then
`quote(slug, safe='')`. -/
def createSlug (subscription : Str) : Str :=
  pyQuote ((((pyStrip ((removeParens subscription).filter keepSlugChar)).map
    (fun c => if c = ' ' then '-' else c)).map Char.toLower))

/-- Claim C2's description of `slugify`, step "remove any parenthesized substring
(and its parentheses) and surrounding whitespace": one attempt anchored at the
head, also consuming whitespace after the closing parenthesis. -/
def matchParenSurroundAt (s : Str) : Option Str :=
  (matchParenAt s).map (fun tail => tail.dropWhile pyIsSpace)

/-- Fuelled scan for `removeParensSurround`. -/
def removeParensSurroundAux : Nat → Str → Str
  | 0, s => s
  | _ + 1, [] => []
  | fuel + 1, c :: cs =>
    match matchParenSurroundAt (c :: cs) with
    | some rest => removeParensSurroundAux fuel rest
    | none => c :: removeParensSurroundAux fuel cs

/-- Removal of parenthesized substrings together with their surrounding
whitespace, as claim C2 words it. -/
def removeParensSurround (s : Str) : Str :=
  removeParensSurroundAux s.length s

/-- Claim C2's character filter: keep only alphanumeric, whitespace, hyphen. -/
def claimC2Keep (c : Char) : Bool :=
  c.isAlphanum || pyIsSpace c || c = '-'

/-- Fuelled replacement of each whitespace run by a single hyphen
(claim C2's step "replace internal whitespace runs with single hyphens"). -/
def collapseWsAux : Nat → Str → Str
  | 0, s => s
  | _ + 1, [] => []
  | fuel + 1, c :: cs =>
    if pyIsSpace c then '-' :: collapseWsAux fuel (cs.dropWhile pyIsSpace)
    else c :: collapseWsAux fuel cs

/-- Replace each whitespace run by a single hyphen. -/
def collapseWs (s : Str) : Str :=
  collapseWsAux s.length s

/-- `slugify` exactly as claim C2 states it: remove parenthesized substrings
with parentheses and surrounding whitespace; strip every character that is not
alphanumeric, whitespace, or hyphen; trim; replace each internal whitespace run
with a single hyphen; lowercase; percent-encode remaining reserved characters.
This is the claim-side definition, to be compared with `createSlug`. -/
def slugifyClaimC2 (subscription : Str) : Str :=
  pyQuote ((collapseWs (pyStrip ((removeParensSurround subscription).filter
    claimC2Keep))).map Char.toLower)

/-- The amended claim C2's character filter: keep word characters
(alphanumeric or underscore), whitespace, and hyphen. -/
def amendedC2Keep (c : Char) : Bool :=
  c.isAlpha || c.isDigit || c = '_' || pyIsSpace c || c = '-'

/-- `slugify` as amended: remove each parenthesized substring with its
parentheses and the whitespace immediately preceding it; strip every character
that is not a word character (alphanumeric or underscore), whitespace, or
hyphen; trim; replace each space character with a hyphen; lowercase;
percent-encode every character outside the URL-unreserved set. -/
def slugifyAmendedC2 (subscription : Str) : Str :=
  pyQuote ((((pyStrip ((removeParens subscription).filter amendedC2Keep)).map
    (fun c => if c = ' ' then '-' else c)).map Char.toLower))

/-- The characters `createSlug` maps to themselves: its output alphabet apart
from percent-escapes, and the "valid input alphabet" of claim C8. -/
def slugAlphabet : Str := "abcdefghijklmnopqrstuvwxyz0123456789_-".data

/-! ## Dates and times: `datetime.strptime` with the scraper's formats -/

/-- Calendar date (`datetime.date`). -/
structure Date where
  year : Nat
  month : Nat
  day : Nat
deriving DecidableEq, Repr

/-- Time of day (`datetime.time`, to minute precision as parsed by `%H:%M`). -/
structure Time where
  hour : Nat
  minute : Nat
deriving DecidableEq, Repr

/-- `datetime.combine(date, time)`. -/
structure DateTime where
  date : Date
  time : Time
deriving DecidableEq, Repr

/-- Gregorian leap year (as `datetime` validates days). -/
def isLeapYear (y : Nat) : Bool :=
  (y % 4 = 0 && y % 100 != 0) || y % 400 = 0

/-- Days in a month, used by `datetime`'s day-of-month validation. -/
def daysInMonth (y m : Nat) : Nat :=
  if m = 2 then (if isLeapYear y then 29 else 28)
  else if m = 4 || m = 6 || m = 9 || m = 11 then 30
  else 31

/-- `datetime.strptime(s, '%d/%m/%Y').date()`: day and month of one or two
digits (day 1-31 within the month, month 1-12), year of exactly four digits
(at least 0001), the whole string consumed. -/
def parseDate (s : Str) : Option Date :=
  match splitOnChar '/' s with
  | [ds, ms, ys] =>
    if allDigits ds ∧ ds.length ≤ 2 ∧ allDigits ms ∧ ms.length ≤ 2
        ∧ allDigits ys ∧ ys.length = 4 then
      let d := digitsToNat ds
      let m := digitsToNat ms
      let y := digitsToNat ys
      if 1 ≤ y ∧ 1 ≤ m ∧ m ≤ 12 ∧ 1 ≤ d ∧ d ≤ daysInMonth y m then
        some ⟨y, m, d⟩
      else none
    else none
  | _ => none

/-- `datetime.strptime(s, '%H:%M').time()`: hour and minute of one or two
digits, hour 0-23, minute 0-59, the whole string consumed. -/
def parseTime (s : Str) : Option Time :=
  match splitOnChar ':' s with
  | [hs, ms] =>
    if allDigits hs ∧ hs.length ≤ 2 ∧ allDigits ms ∧ ms.length ≤ 2 then
      let h := digitsToNat hs
      let m := digitsToNat ms
      if h ≤ 23 ∧ m ≤ 59 then some ⟨h, m⟩ else none
    else none
  | _ => none

/-- scraper.py lines 120-123: `start_str, end_str = ora.split('-')` (a
`ValueError` unless the split yields exactly two parts) followed by
`strptime(part.strip(), '%H:%M')` on each part. -/
def parseTimeRange (ora : Str) : Option (Time × Time) :=
  match splitOnChar '-' ora with
  | [s1, s2] =>
    match parseTime (pyStrip s1), parseTime (pyStrip s2) with
    | some t1, some t2 => some (t1, t2)
    | _, _ => none
  | _ => none

/-! ## Calendar scraper: `EventScraper.scrape_calendar` (scraper.py lines 58-178)

HTML parsing by BeautifulSoup is external; a table row enters the embedding as
the list of its `td` cells, each cell carrying its stripped text
(`get_text(strip=True)`) and, for the details cell, the `href` of its first
anchor when one exists. -/

/-- One `td` cell: its stripped text and the `href` of its first `<a>`, if any. -/
structure Cell where
  text : Str
  href : Option Str
deriving DecidableEq, Repr

/-- A table row: the list of its cells. -/
abbrev Row := List Cell

/-- The canonical event record built at scraper.py lines 163-172. -/
structure Event where
  course : Str
  subscription : Str
  summary : Str
  startDate : DateTime
  endDate : DateTime
  description : Str
  location : Str
  url : Str
deriving DecidableEq, Repr

/-- Scrape-time context: the calendar page URL and course code passed to
`scrape_calendar`, and the two flyer-extraction collaborators
`extract_pdf_location` / `extract_pdf_speaker` (network effects, hence
oracles). -/
structure ScrapeEnv where
  pageUrl : Str
  course : Str
  fetchLoc : Str → Option Str
  fetchSpeaker : Str → Option Str

/-- The site origin used to resolve relative hrefs (scraper.py lines 48, 135). -/
def siteOrigin : Str := "https://ianua.unige.it".data

/-- `href if href.startswith('http') else f"https://ianua.unige.it{href}"`. -/
def absolutize (href : Str) : Str :=
  if ("http".data).isPrefixOf href then href else siteOrigin ++ href

/-- Out-of-range cell access default (unreachable for rows of length ≥ 9). -/
def defaultCell : Cell := ⟨[], none⟩

/-- `cells[0].get_text(strip=True)` — the date cell's text. -/
def dateCell (r : Row) : Str := (r.getD 0 defaultCell).text

/-- `cells[2].get_text(strip=True)` — the time-range cell's text. -/
def timeCell (r : Row) : Str := (r.getD 2 defaultCell).text

/-- `cells[4].get_text(strip=True)` — the module/title cell's text. -/
def titleCell (r : Row) : Str := (r.getD 4 defaultCell).text

/-- `cells[6].get_text(strip=True)` — the responsible-person cell's text. -/
def respCell (r : Row) : Str := (r.getD 6 defaultCell).text

/-- `cells[8]` — the details cell (may embed the flyer anchor). -/
def detailsCell (r : Row) : Cell := r.getD 8 defaultCell

/-- Lines 116-173 of the row loop, reached with the updated `current_date`:
skip if no current date, or an empty time or title cell, or a time range that
fails to split into two `HH:MM` parts; otherwise build the event. -/
def rowEventAfterDate (env : ScrapeEnv) (subscription : Str)
    (cur : Option Date) (r : Row) : Option Event :=
  match cur with
  | none => none
  | some cd =>
    if timeCell r = [] ∨ titleCell r = [] then none
    else
      match parseTimeRange (timeCell r) with
      | none => none
      | some (t1, t2) =>
        let locandina : Option Str :=
          match (detailsCell r).href with
          | some h => if h = [] then none else some (absolutize h)
          | none => none
        let pdfLocation := locandina.bind env.fetchLoc
        let pdfSpeaker := locandina.bind env.fetchSpeaker
        let parts :=
          (if respCell r = [] then [] else [("Responsabile: ".data) ++ respCell r])
            ++ (match pdfSpeaker with
                | some s => [("Speaker: ".data) ++ s]
                | none => [])
        let description := if parts = [] then "TBD".data else joinChar '\n' parts
        some
          { course := env.course
            subscription := subscription
            summary := titleCell r
            startDate := ⟨cd, t1⟩
            endDate := ⟨cd, t2⟩
            description := description
            location := pdfLocation.getD []
            url := locandina.getD env.pageUrl }

/-- One iteration of the row loop (scraper.py lines 97-173), given the carried
`current_date`: returns the `current_date` after the row and the event the row
contributes, if any.  Mirrors the source's `continue`s: fewer than 9 cells
skips before the cells are read; a non-blank date cell updates `current_date`
when it parses and skips the row leaving it unchanged otherwise
(`except ValueError: continue`); the remaining checks are `rowEventAfterDate`. -/
def rowStep (env : ScrapeEnv) (subscription : Str) (current : Option Date)
    (r : Row) : Option Date × Option Event :=
  if r.length < 9 then (current, none)
  else
    match (if dateCell r = [] then some current
           else (parseDate (dateCell r)).map some) with
    | none => (current, none)
    | some cur => (cur, rowEventAfterDate env subscription cur r)

/-- `current_date` after a row. -/
def stepDate (env : ScrapeEnv) (subscription : Str) (current : Option Date)
    (r : Row) : Option Date :=
  (rowStep env subscription current r).1

/-- The event a row contributes, if any. -/
def rowEvent (env : ScrapeEnv) (subscription : Str) (current : Option Date)
    (r : Row) : Option Event :=
  (rowStep env subscription current r).2

/-- The row loop over a table's data rows (scraper.py lines 95-173), with the
carried `current_date` threaded through and each accepted row's event appended
in order. -/
def tableEvents (env : ScrapeEnv) (subscription : Str) :
    Option Date → List Row → List Event
  | _, [] => []
  | current, r :: rs =>
    ((rowStep env subscription current r).2).toList
      ++ tableEvents env subscription (rowStep env subscription current r).1 rs

/-- A level-2 heading as seen by the scraper: its stripped text and the rows of
the next table following it in document order, when there is one. -/
structure Heading where
  title : Str
  table : Option (List Row)

/-- Processing of one accepted heading: `header.find_next('table')`, skip the
header row (`find_all('tr')[1:]`), run the row loop with `current_date = None`. -/
def headingEvents (env : ScrapeEnv) (h : Heading) : List Event :=
  match h.table with
  | none => []
  | some rows => tableEvents env h.title none (rows.drop 1)

/-- The heading loop (scraper.py lines 80-173): a heading is accepted iff its
stripped text is non-empty and starts with `course + ' '`; each accepted
heading's title is recorded as a subscription and its table's events appended. -/
def scrapePage (env : ScrapeEnv) : List Heading → List Event × List Str
  | [] => ([], [])
  | h :: hs =>
    if h.title = [] ∨ ¬ (env.course ++ [' ']).isPrefixOf h.title then
      scrapePage env hs
    else
      ((headingEvents env h) ++ (scrapePage env hs).1,
        h.title :: (scrapePage env hs).2)

/-- `EventScraper.scrape_calendar(url, course)`: fetch the page (a
`requests.RequestException` is caught and yields `([], [])`), then run the
heading loop.  The fetched, soup-parsed page enters as the oracle `fetchPage`. -/
def scrape_calendar (fetchPage : Str → Option (List Heading))
    (fetchLoc fetchSpeaker : Str → Option Str) (url course : Str) :
    List Event × List Str :=
  match fetchPage url with
  | none => ([], [])
  | some page => scrapePage ⟨url, course, fetchLoc, fetchSpeaker⟩ page

/-- Claim C4's "nearest earlier row of that same table that had a non-blank,
parseable date cell": the date-cell update a single row contributes (only rows
with at least 9 cells reach the date-cell read). -/
def rowDateUpdate (r : Row) : Option Date :=
  if 9 ≤ r.length ∧ dateCell r ≠ [] then parseDate (dateCell r) else none

/-- The date carried after a list of rows, described as claim C4 words it:
the parse of the last row contributing a date update. -/
def nearestCarriedDate : List Row → Option Date
  | [] => none
  | r :: rs => (nearestCarriedDate rs).or (rowDateUpdate r)

/-- The carried `current_date` after a list of rows. -/
def foldDate (env : ScrapeEnv) (sub : Str) (c : Option Date)
    (rows : List Row) : Option Date :=
  rows.foldl (stepDate env sub) c

/-! ## Flyer extractor: `PDFExtractor` (pdf_extractor.py)

Downloading the PDF and `pdfplumber` text extraction are external effects; the
heuristics below take the already-extracted text.  `extract_location_from_pdf`
and `extract_speaker_info` are these heuristics composed with a text oracle
(any fetch or extraction failure is caught and yields `None`). -/

/-- Python `str.isupper()` (ASCII): at least one letter and no lowercase one. -/
def pyIsUpperStr (s : Str) : Bool :=
  s.any Char.isAlpha && s.all (fun c => !c.isLower)

/-- `re.match(r'^\d+', line)`: the line starts with a digit. -/
def digitLeading (s : Str) : Bool :=
  match s with
  | [] => false
  | c :: _ => c.isDigit

/-- Lookahead `(?=\n\n|\n[A-Z]|\Z)` tested at the position where the given
suffix of the text starts. -/
def isLookaheadPos : Str → Bool
  | [] => true
  | '\n' :: c :: _ => c = '\n' || ('A' ≤ c && c ≤ 'Z')
  | _ => false

/-- Smallest position `≥ k` (the position where suffix `s` starts) at which the
lookahead holds; the lazy `.*?` before the lookahead stops there.  Always
succeeds because `\Z` holds at the end of the text. -/
def findEnd : Str → Nat → Nat
  | [], k => k
  | c :: s, k => if isLookaheadPos (c :: s) then k else findEnd s (k + 1)

/-- `re.search(r"Dalle ore.*?alle.*?(?=\n\n|\n[A-Z]|\Z)", text, re.DOTALL)`,
returning `match.end()`.  The match starts at the leftmost position carrying
the literal `Dalle ore` with some later `alle` (the final lazy `.*?` can always
reach `\Z`, so such a start always yields a match); the first lazy `.*?` stops
at the earliest `alle`, and the match ends at the earliest following lookahead
position. -/
def locScan (text : Str) : Str → Nat → Option Nat
  | [], _ => none
  | c :: s, i =>
    if ("Dalle ore".data).isPrefixOf (c :: s) then
      match strFind "alle".data ((c :: s).drop 9) with
      | some k => some (findEnd (text.drop (i + 9 + k + 4)) (i + 9 + k + 4))
      | none => locScan text s (i + 1)
    else locScan text s (i + 1)

/-- The line terminating the location accumulation (pdf_extractor.py line 84):
blank, or containing `ABSTRACT` case-insensitively. -/
def locStop (l : Str) : Bool :=
  l.isEmpty || containsSub ("ABSTRACT".data) (l.map Char.toUpper)

/-- The accumulation loop of pdf_extractor.py lines 82-86: strip each line,
stop at the first stopping line, collect the rest. -/
def collectLoc : List Str → List Str
  | [] => []
  | l :: ls =>
    if locStop (pyStrip l) then []
    else pyStrip l :: collectLoc ls

/-- `PDFExtractor.extract_location_from_pdf`, lines 72-90, applied to the
extracted text: find the time-range pattern; take the text after the match,
stripped; accumulate lines until a blank or `ABSTRACT` line; join the first
three accumulated lines; empty result maps to `None`. -/
def extract_location_from_text (text : Str) : Option Str :=
  match locScan text text 0 with
  | none => none
  | some e =>
    let lines := splitOnChar '\n' (pyStrip (text.drop e))
    let location := joinChar '\n' ((collectLoc lines).take 3)
    if location = [] then none else some location

/-- `extract_pdf_location(pdf_url)`: download and text-extract (oracle), then
the location heuristic; any failure yields `None`. -/
def extract_location_from_pdf (fetchText : Str → Option Str) (pdfUrl : Str) :
    Option Str :=
  (fetchText pdfUrl).bind extract_location_from_text

/-- The title-skip test of pdf_extractor.py line 127: all-uppercase, longer
than 10 characters, no digit. -/
def titleLine (l : Str) : Bool :=
  pyIsUpperStr l && decide (10 < l.length) && !(l.any Char.isDigit)

/-- The scheduling/location markers stopping the speaker scan (line 135). -/
def speakerStops (l : Str) : Bool :=
  containsSub ("Dalle ore".data) l || containsSub ("Polo Didattico".data) l
    || containsSub ("Via ".data) l

/-- The exclusion vocabulary of pdf_extractor.py line 140. -/
def exclVocab : List Str :=
  ["INDIRIZZO".data, "ANNO".data, "CL3".data, "LMCU".data, "ISB".data, "DIFAR".data]

/-- The honorific tokens of pdf_extractor.py line 143. -/
def honorifics : List Str :=
  ["Prof".data, "Dott".data, "Dr".data, "Direzione".data, "Segretario".data]

/-- The outer acceptance test (pdf_extractor.py lines 139-141): at least two
words, no exclusion word in the uppercased line, not fully uppercase. -/
def acceptOuter (l : Str) : Bool :=
  decide (2 ≤ (pyWords l).length)
    && !(exclVocab.any (fun w => containsSub w (l.map Char.toUpper)))
    && !(pyIsUpperStr l)

/-- The inner acceptance test (lines 143-144): contains an honorific, or is
exactly two words with no digit. -/
def acceptInner (l : Str) : Bool :=
  honorifics.any (fun t => containsSub t l)
    || (decide ((pyWords l).length = 2) && !(l.any Char.isDigit))

/-- A line the bio loop (lines 148-157) keeps: non-blank, not fully uppercase,
not digit-leading, containing neither `Dalle ore` nor `Polo Didattico`. -/
def bioOk (l : Str) : Bool :=
  !l.isEmpty && !(pyIsUpperStr l) && !(digitLeading l)
    && !(containsSub ("Dalle ore".data) l)
    && !(containsSub ("Polo Didattico".data) l)

/-- The bio loop: strip and keep up to `n` following lines, stopping at the
first line failing `bioOk` (`for j in range(i+1, min(i+4, len(lines)))`). -/
def bioCollect : Nat → List Str → List Str
  | 0, _ => []
  | _ + 1, [] => []
  | n + 1, l :: ls =>
    if bioOk (pyStrip l) then pyStrip l :: bioCollect n ls else []

/-- The speaker scan (pdf_extractor.py lines 121-158): skip blank lines and
all-caps headlines; stop with no speaker at a digit-leading line or a
scheduling/location marker; at the first accepted line, take it and up to
three bio lines and stop. -/
def speakerScan : List Str → List Str
  | [] => []
  | l :: ls =>
    if pyStrip l = [] then speakerScan ls
    else if titleLine (pyStrip l) then speakerScan ls
    else if digitLeading (pyStrip l) then []
    else if speakerStops (pyStrip l) then []
    else if acceptOuter (pyStrip l) && acceptInner (pyStrip l) then
      pyStrip l :: bioCollect 3 ls
    else speakerScan ls

/-- `PDFExtractor.extract_speaker_info`, lines 117-161, applied to the
extracted text: run the scan over the text's lines, join with newlines, strip;
empty result maps to `None`. -/
def extract_speaker_from_text (text : Str) : Option Str :=
  let info := pyStrip (joinChar '\n' (speakerScan (splitOnChar '\n' text)))
  if info = [] then none else some info

/-- `extract_pdf_speaker(pdf_url)`: download and text-extract (oracle), then
the speaker heuristic; any failure yields `None`. -/
def extract_speaker_from_pdf (fetchText : Str → Option Str) (pdfUrl : Str) :
    Option Str :=
  (fetchText pdfUrl).bind extract_speaker_from_text

/-! ## CalDav server: `CalDavServer` (server.py) -/

/-- `_group_events_by_subscription` inner update: append the event to its
subscription's list, creating the group at the end on first sight (Python
dicts preserve insertion order). -/
def addToGroup : List (Str × List Event) → Str → Event → List (Str × List Event)
  | [], sub, e => [(sub, [e])]
  | g :: gs, sub, e =>
    if g.1 = sub then (g.1, g.2 ++ [e]) :: gs
    else g :: addToGroup gs sub e

/-- `CalDavServer._group_events_by_subscription` (server.py lines 30-38).
In the embedding every event record carries its subscription label, so the
`event.get('subscription', 'unknown')` default never fires. -/
def groupEventsBySubscription (events : List Event) : List (Str × List Event) :=
  events.foldl (fun gs e => addToGroup gs e.subscription e) []

/-- The value a route handler returns: a rendered calendar
(`self._serve_calendar(events, name)`) or a plain response with a status code
(`Response(body, status)`). -/
inductive CalResponse where
  | calendar (events : List Event) (name : Str)
  | plain (body : Str) (status : Nat)
deriving DecidableEq, Repr

/-- The `/calendar/<slug>.ics` handler `get_subscription_calendar`
(server.py lines 56-63): scan the grouping for a label whose slug matches,
serve its calendar, else a 404 with body `Subscription not found`. -/
def get_subscription_calendar (groups : List (Str × List Event)) (slug : Str) :
    CalResponse :=
  match groups with
  | [] => .plain ("Subscription not found".data) 404
  | (name, evs) :: rest =>
    if createSlug name = slug then .calendar evs (("IANUA ".data) ++ name)
    else get_subscription_calendar rest slug

/-! ## Calendar discovery: `EventScraper.scrape_caratterizzanti`
(scraper.py lines 25-56) -/

/-- An `<a>` element with its `href` attribute value and stripped text. -/
structure Anchor where
  href : Str
  text : Str

/-- The landing-page link record `{course, link, title}` built at
scraper.py lines 46-50. -/
structure CalLink where
  course : Str
  link : Str
  title : Str
deriving DecidableEq, Repr

/-- The discovery marker substring. -/
def marker : Str := "caratterizzanti-25-26".data

/-- The link-selection and record-building part of `scrape_caratterizzanti`
(lines 39-50): keep anchors whose truthy `href` contains the marker; course is
the second `-`-delimited segment of the href; relative hrefs are resolved
against the site origin. -/
def discoverLinks (anchors : List Anchor) : List CalLink :=
  (anchors.filter (fun a => !a.href.isEmpty && containsSub marker a.href)).map
    (fun a =>
      { course := (splitOnChar '-' a.href).getD 1 []
        link := absolutize a.href
        title := a.text })

/-- Exceptions that can cross the embedded `try` blocks. -/
inductive PyErr where
  | nameError (name : Str)
  | requestException
deriving DecidableEq, Repr

/-- `EventScraper.scrape_caratterizzanti` (scraper.py lines 25-56).
The `try` body executes `requests.get(url, ...)` — but `url` is bound neither
locally nor at module level (the attribute is `self.url`), so evaluating the
bare name raises `NameError` before any request is made; the `except` clause
catches only `requests.RequestException`.  The fetch-and-parse collaborator
enters as the oracle `fetch` (failure = `requestException`); `selfUrl` is the
`self.url` attribute, which the body never reads. -/
def scrape_caratterizzanti (fetch : Str → Except PyErr (List Anchor))
    (selfUrl : Str) : Except PyErr (List CalLink) :=
  let tryBody : Except PyErr (List CalLink) :=
    (Except.error (PyErr.nameError ("url".data))).bind fun u =>
      (fetch u).bind fun anchors => Except.ok (discoverLinks anchors)
  match tryBody with
  | Except.error PyErr.requestException => Except.ok []
  | r => r

/-! ## Concrete fixtures used by witnesses -/

/-- A cell with the given text and no link. -/
def wCell (s : String) : Cell := ⟨s.data, none⟩

/-- A scrape context with stub flyer oracles. -/
def wEnv : ScrapeEnv :=
  ⟨"https://ianua.unige.it/cal".data, "ISB".data, fun _ => none, fun _ => none⟩

/-- A 9-cell row carrying the date `12/10/2025`. -/
def wRow0 : Row :=
  [wCell "12/10/2025", wCell "", wCell "09:00-13:00", wCell "", wCell "Module A",
    wCell "", wCell "", wCell "", wCell ""]

/-- A 9-cell row with a blank date cell. -/
def wRow1 : Row :=
  [wCell "", wCell "", wCell "14:00-16:00", wCell "", wCell "Module B",
    wCell "", wCell "", wCell "", wCell ""]

/-- A two-row table body: a dated row followed by a blank-date row. -/
def wRows : List Row := [wRow0, wRow1]

/-- A row with only 3 cells. -/
def wShortRow : Row := [wCell "13/10/2025", wCell "", wCell "09:00-13:00"]

/-- A subscription label accepted for course `ISB`. -/
def wSub : Str := "ISB Alpha".data

/-- A one-heading page: the heading's table has a header row and `wRow0`. -/
def wPage : List Heading := [⟨wSub, some [[], wRow0]⟩]

/-- A page oracle always returning `wPage`. -/
def wFetchPage : Str → Option (List Heading) := fun _ => some wPage

/-- The event `scrape_calendar` builds from `wRow0` under `wPage`. -/
def wEvent : Event :=
  { course := "ISB".data
    subscription := wSub
    summary := "Module A".data
    startDate := ⟨⟨2025, 10, 12⟩, ⟨9, 0⟩⟩
    endDate := ⟨⟨2025, 10, 12⟩, ⟨13, 0⟩⟩
    description := "TBD".data
    location := []
    url := "https://ianua.unige.it/cal".data }

/-! ## General helper lemmas -/

theorem map_eq_self_of {α : Type} (f : α → α) (l : List α)
    (h : ∀ a ∈ l, f a = a) : l.map f = l := by
  induction l with
  | nil => rfl
  | cons a t ih =>
    simp only [List.map_cons]
    rw [h a (List.mem_cons_self a t), ih (fun b hb => h b (List.mem_cons_of_mem a hb))]

theorem flatMap_eq_self_of {α : Type} (f : α → List α) (l : List α)
    (h : ∀ a ∈ l, f a = [a]) : l.flatMap f = l := by
  induction l with
  | nil => rfl
  | cons a t ih =>
    simp only [List.flatMap_cons]
    rw [h a (List.mem_cons_self a t), ih (fun b hb => h b (List.mem_cons_of_mem a hb))]
    rfl

theorem dropWhile_eq_self_of {α : Type} (p : α → Bool) (l : List α)
    (h : ∀ a ∈ l, p a = false) : l.dropWhile p = l := by
  cases l with
  | nil => rfl
  | cons a t =>
    have : ¬ p a = true := by
      rw [h a (List.mem_cons_self a t)]; exact Bool.false_ne_true
    exact List.dropWhile_cons_of_neg this

theorem pyStrip_eq_self (s : Str) (h : ∀ c ∈ s, pyIsSpace c = false) :
    pyStrip s = s := by
  unfold pyStrip
  rw [dropWhile_eq_self_of pyIsSpace s h]
  rw [dropWhile_eq_self_of pyIsSpace s.reverse
    (fun c hc => h c (List.mem_reverse.mp hc))]
  exact List.reverse_reverse s

theorem mem_of_mem_pyStrip {s : Str} {c : Char} (h : c ∈ pyStrip s) : c ∈ s := by
  unfold pyStrip at h
  have h1 := (List.dropWhile_sublist pyIsSpace).mem (List.mem_reverse.mp h)
  exact (List.dropWhile_sublist pyIsSpace).mem (List.mem_reverse.mp h1)

/-! ## Fixed points of `createSlug` (claim C8) -/

theorem slugAlphabet_keep : ∀ c ∈ slugAlphabet, keepSlugChar c = true := by decide

theorem slugAlphabet_notSpace : ∀ c ∈ slugAlphabet, pyIsSpace c = false := by decide

theorem slugAlphabet_spaceMap :
    ∀ c ∈ slugAlphabet, (if c = ' ' then '-' else c) = c := by decide

theorem slugAlphabet_toLower : ∀ c ∈ slugAlphabet, Char.toLower c = c := by decide

theorem slugAlphabet_pct : ∀ c ∈ slugAlphabet, pctEncodeChar c = [c] := by decide

theorem matchParenAt_eq_none {s : Str} (h : '(' ∉ s) : matchParenAt s = none := by
  unfold matchParenAt
  cases hd : s.dropWhile pyIsSpace with
  | nil => rfl
  | cons c rest =>
    have hc : c ∈ s := by
      refine (List.dropWhile_sublist pyIsSpace).mem ?_
      rw [hd]; exact List.mem_cons_self c rest
    have hne : ¬ c = '(' := fun he => h (he ▸ hc)
    simp [hne]

theorem removeParensAux_eq_self :
    ∀ (fuel : Nat) (s : Str), '(' ∉ s → removeParensAux fuel s = s := by
  intro fuel
  induction fuel with
  | zero => intro s _; rfl
  | succ n ih =>
    intro s h
    cases s with
    | nil => rfl
    | cons c cs =>
      unfold removeParensAux
      rw [matchParenAt_eq_none h]
      rw [ih cs (fun hm => h (List.mem_cons_of_mem c hm))]

theorem removeParens_eq_self {s : Str} (h : '(' ∉ s) : removeParens s = s :=
  removeParensAux_eq_self s.length s h

/-- Every string over `slugAlphabet` is a fixed point of `createSlug`. -/
theorem createSlug_fixed {s : Str} (h : ∀ c ∈ s, c ∈ slugAlphabet) :
    createSlug s = s := by
  have hp : '(' ∉ s := fun hp => absurd (h _ hp) (by decide)
  unfold createSlug
  rw [removeParens_eq_self hp]
  rw [List.filter_eq_self.mpr (fun c hc => slugAlphabet_keep c (h c hc))]
  rw [pyStrip_eq_self s (fun c hc => slugAlphabet_notSpace c (h c hc))]
  rw [map_eq_self_of _ s (fun c hc => slugAlphabet_spaceMap c (h c hc))]
  rw [map_eq_self_of _ s (fun c hc => slugAlphabet_toLower c (h c hc))]
  exact flatMap_eq_self_of _ s (fun c hc => slugAlphabet_pct c (h c hc))

/-- C8: for every subscription label whose `slugify` output lies within
`slugify`'s valid input alphabet (the characters the pipeline fixes:
lowercase letters, digits, underscore, hyphen), `slugify` is idempotent:
`slugify(slugify(L)) = slugify(L)`. -/
theorem C8_slugify_idempotent (L : Str)
    (h : ∀ c ∈ createSlug L, c ∈ slugAlphabet) :
    createSlug (createSlug L) = createSlug L :=
  createSlug_fixed h

/-- Witness for C8 at the concrete label `Hello World`. -/
theorem C8_slugify_idempotent_witness :
    (∀ c ∈ createSlug ("Hello World".data), c ∈ slugAlphabet)
    ∧ createSlug (createSlug ("Hello World".data))
        = createSlug ("Hello World".data) :=
  ⟨by decide, C8_slugify_idempotent ("Hello World".data) (by decide)⟩

/-- C2 counterexample: on the label `A  B_ (x) c` the implementation yields
`a--b_-c` (each space becomes its own hyphen, the underscore survives the
`\w` class, and only whitespace before the parenthesized group is removed),
while the procedure described by the claim yields `a-bc`. -/
theorem C2_counterexample :
    createSlug ("A  B_ (x) c".data) = ("a--b_-c".data)
    ∧ slugifyClaimC2 ("A  B_ (x) c".data) = ("a-bc".data)
    ∧ createSlug ("A  B_ (x) c".data) ≠ slugifyClaimC2 ("A  B_ (x) c".data) :=
  ⟨by decide, by decide, by decide⟩

/-- C2 as amended: `slugify(L)` equals the string obtained by removing every
parenthesized substring with its parentheses and the whitespace immediately
preceding it; stripping every character that is not a word character
(alphanumeric or underscore), whitespace, or hyphen; trimming; replacing each
space character with a hyphen; lowercasing; and percent-encoding every
character outside the URL-unreserved set. -/
theorem C2_amended_slugify (s : Str) : createSlug s = slugifyAmendedC2 s := by
  unfold createSlug slugifyAmendedC2
  have h : ∀ c ∈ removeParens s, keepSlugChar c = amendedC2Keep c := by
    intro c _
    simp [keepSlugChar, amendedC2Keep, pyIsWordChar, Char.isAlphanum, Bool.or_assoc]
  rw [List.filter_congr h]

/-! ## Claim C9: unknown slug yields 404 -/

theorem get_subscription_calendar_no_match :
    ∀ (gs : List (Str × List Event)) (slug : Str),
      (∀ g ∈ gs, createSlug g.1 ≠ slug) →
      get_subscription_calendar gs slug
        = CalResponse.plain ("Subscription not found".data) 404 := by
  intro gs
  induction gs with
  | nil => intro slug _; rfl
  | cons g rest ih =>
    intro slug h
    obtain ⟨name, evs⟩ := g
    unfold get_subscription_calendar
    rw [if_neg (h (name, evs) (List.mem_cons_self _ _))]
    exact ih slug (fun g hg => h g (List.mem_cons_of_mem _ hg))

/-- C9: for every slug matched by no subscription label of the current
grouping, `GET /calendar/<slug>.ics` returns status 404 with the exact body
`Subscription not found`. -/
theorem C9_unknown_slug_404 (events : List Event) (slug : Str)
    (h : ∀ g ∈ groupEventsBySubscription events, createSlug g.1 ≠ slug) :
    get_subscription_calendar (groupEventsBySubscription events) slug
      = CalResponse.plain ("Subscription not found".data) 404 :=
  get_subscription_calendar_no_match _ slug h

/-- Witness for C9: a one-event grouping and the unmatched slug `zzz`. -/
theorem C9_unknown_slug_404_witness :
    get_subscription_calendar (groupEventsBySubscription [wEvent]) ("zzz".data)
      = CalResponse.plain ("Subscription not found".data) 404 :=
  C9_unknown_slug_404 [wEvent] ("zzz".data) (by decide)

/-- C1: every call of `scrape_caratterizzanti` raises
`NameError: name 'url' is not defined` — the `try` body reads the unbound
name `url` (the attribute is `self.url`) before the request, and the handler
catches only `requests.RequestException` — so the method never returns a list
at all, refuting "returns records, and on fetch failure returns the empty
list after logging, never raising". -/
theorem C1_scrape_caratterizzanti_raises
    (fetch : Str → Except PyErr (List Anchor)) (selfUrl : Str) :
    scrape_caratterizzanti fetch selfUrl
      = Except.error (PyErr.nameError ("url".data)) := rfl

/-! ## Splitting and joining lemmas (for claims C6 and C7) -/

theorem splitOnChar_cons (sep c : Char) (cs : Str) :
    splitOnChar sep (c :: cs)
      = if c = sep then [] :: splitOnChar sep cs
        else (c :: (splitOnChar sep cs).headD []) :: (splitOnChar sep cs).tail := by
  rfl

theorem splitOnChar_ne_nil (sep : Char) (s : Str) : splitOnChar sep s ≠ [] := by
  induction s with
  | nil => simp [splitOnChar]
  | cons c cs ih =>
    unfold splitOnChar
    by_cases h : c = sep
    · simp [h]
    · simp [h]

theorem not_mem_of_mem_splitOnChar (sep : Char) :
    ∀ (s : Str) (l : Str), l ∈ splitOnChar sep s → sep ∉ l := by
  intro s
  induction s with
  | nil =>
    intro l hl
    simp [splitOnChar] at hl
    simp [hl]
  | cons c cs ih =>
    intro l hl
    unfold splitOnChar at hl
    by_cases h : c = sep
    · rw [if_pos h] at hl
      rcases List.mem_cons.mp hl with h1 | h1
      · simp [h1]
      · exact ih l h1
    · rw [if_neg h] at hl
      cases hs : splitOnChar sep cs with
      | nil => exact absurd hs (splitOnChar_ne_nil sep cs)
      | cons t ts =>
        rw [hs] at hl
        simp only [List.headD, List.tail] at hl
        rcases List.mem_cons.mp hl with h1 | h1
        · subst h1
          intro hm
          rcases List.mem_cons.mp hm with h2 | h2
          · exact h h2.symm
          · exact ih t (by rw [hs]; exact List.mem_cons_self t ts) h2
        · exact ih l (by rw [hs]; exact List.mem_cons_of_mem t h1)

theorem splitOnChar_of_not_mem {sep : Char} :
    ∀ {l : Str}, sep ∉ l → splitOnChar sep l = [l] := by
  intro l
  induction l with
  | nil => intro _; rfl
  | cons c cs ih =>
    intro h
    have hc : ¬ c = sep := fun he => h (he ▸ List.mem_cons_self c cs)
    rw [splitOnChar_cons, if_neg hc, ih (fun hm => h (List.mem_cons_of_mem c hm))]
    rfl

theorem splitOnChar_append_cons {sep : Char} :
    ∀ {l : Str} (rest : Str), sep ∉ l →
      splitOnChar sep (l ++ sep :: rest) = l :: splitOnChar sep rest := by
  intro l
  induction l with
  | nil => intro rest _; simp [splitOnChar]
  | cons c cs ih =>
    intro rest h
    have hc : ¬ c = sep := fun he => h (he ▸ List.mem_cons_self c cs)
    have hsh : (c :: cs) ++ sep :: rest = c :: (cs ++ sep :: rest) := rfl
    rw [hsh, splitOnChar_cons, if_neg hc,
      ih rest (fun hm => h (List.mem_cons_of_mem c hm))]
    rfl

theorem splitOnChar_joinChar {sep : Char} :
    ∀ {L : List Str}, L ≠ [] → (∀ l ∈ L, sep ∉ l) →
      splitOnChar sep (joinChar sep L) = L := by
  intro L
  induction L with
  | nil => intro h _; exact absurd rfl h
  | cons l L2 ih =>
    intro _ h
    cases L2 with
    | nil =>
      show splitOnChar sep (joinChar sep [l]) = [l]
      exact splitOnChar_of_not_mem (h l (List.mem_cons_self l []))
    | cons l2 L3 =>
      show splitOnChar sep (l ++ sep :: joinChar sep (l2 :: L3)) = l :: l2 :: L3
      rw [splitOnChar_append_cons _ (h l (List.mem_cons_self l _))]
      rw [ih (by simp) (fun x hx => h x (List.mem_cons_of_mem l hx))]

/-! ## Claim C6: location extraction -/

theorem collectLoc_eq_takeWhile (lines : List Str) :
    collectLoc lines = (lines.map pyStrip).takeWhile (fun l => !locStop l) := by
  induction lines with
  | nil => rfl
  | cons l ls ih =>
    unfold collectLoc
    simp only [List.map_cons]
    by_cases h : locStop (pyStrip l) = true
    · rw [if_pos h, List.takeWhile_cons_of_neg (by simp [h])]
    · have hf : locStop (pyStrip l) = false := by simpa using h
      rw [if_neg h, List.takeWhile_cons_of_pos (by simp [hf]), ih]

theorem mem_collectLoc (lines : List Str) (x : Str) (hx : x ∈ collectLoc lines) :
    x ≠ [] ∧ ∃ l ∈ lines, x = pyStrip l := by
  induction lines with
  | nil => simp [collectLoc] at hx
  | cons l ls ih =>
    unfold collectLoc at hx
    by_cases h : locStop (pyStrip l)
    · rw [if_pos h] at hx; simp at hx
    · rw [if_neg h] at hx
      rcases List.mem_cons.mp hx with h1 | h1
      · subst h1
        refine ⟨?_, ⟨l, List.mem_cons_self l ls, rfl⟩⟩
        intro he
        apply h
        unfold locStop
        rw [he]
        rfl
      · obtain ⟨hne, l2, hl2, he⟩ := ih h1
        exact ⟨hne, l2, List.mem_cons_of_mem l hl2, he⟩

/-- C6: applied to flyer text containing the time-range line
`Dalle ore 09:00 alle 13:00` followed by a blank line, `Aula Magna`,
`Via Balbi 5`, a blank line and `ABSTRACT`, location extraction returns
exactly the two location lines; in general the heuristic accumulates the
stripped non-empty lines after the match until a blank or `ABSTRACT` line,
and any returned location is non-empty with at most 3 lines. -/
theorem C6_location_extraction :
    extract_location_from_text
        (("Dalle ore 09:00 alle 13:00\n\nAula Magna\nVia Balbi 5\n\nABSTRACT\n...").data)
      = some (("Aula Magna\nVia Balbi 5").data)
    ∧ (∀ lines : List Str,
        collectLoc lines = (lines.map pyStrip).takeWhile (fun l => !locStop l))
    ∧ (∀ text loc : Str, extract_location_from_text text = some loc →
        loc ≠ [] ∧ (splitOnChar '\n' loc).length ≤ 3) := by
  refine ⟨by decide, collectLoc_eq_takeWhile, ?_⟩
  intro text loc h
  unfold extract_location_from_text at h
  cases he : locScan text text 0 with
  | none => rw [he] at h; exact absurd h (by simp)
  | some e =>
    rw [he] at h
    simp only at h
    by_cases hempty :
        joinChar '\n'
          ((collectLoc (splitOnChar '\n' (pyStrip (text.drop e)))).take 3) = []
    · rw [if_pos hempty] at h
      exact absurd h (by simp)
    · rw [if_neg hempty] at h
      have hloc : loc
          = joinChar '\n'
              ((collectLoc (splitOnChar '\n' (pyStrip (text.drop e)))).take 3) :=
        (Option.some.injEq _ _ ▸ h).symm
      subst hloc
      have hacc_ne :
          (collectLoc (splitOnChar '\n' (pyStrip (text.drop e)))).take 3 ≠ [] := by
        intro hz
        rw [hz] at hempty
        exact hempty rfl
      have hnl : ∀ x ∈ (collectLoc (splitOnChar '\n' (pyStrip (text.drop e)))).take 3,
          '\n' ∉ x := by
        intro x hx
        obtain ⟨_, l, hl, hxe⟩ :=
          mem_collectLoc _ x (List.mem_of_mem_take hx)
        subst hxe
        intro hm
        exact not_mem_of_mem_splitOnChar '\n' _ l hl (mem_of_mem_pyStrip hm)
      refine ⟨hempty, ?_⟩
      rw [splitOnChar_joinChar hacc_ne hnl]
      exact List.length_take_le 3 _

/-- Witness for the conditional part of C6, at the example flyer text. -/
theorem C6_location_extraction_witness :
    ("Aula Magna\nVia Balbi 5").data ≠ ([] : Str)
    ∧ (splitOnChar '\n' (("Aula Magna\nVia Balbi 5").data)).length ≤ 3 :=
  C6_location_extraction.2.2 _ _ C6_location_extraction.1

/-! ## Claim C7: speaker extraction -/

theorem bioCollect_eq_takeWhile :
    ∀ (ls : List Str) (n : Nat),
      bioCollect n ls = ((ls.map pyStrip).takeWhile bioOk).take n := by
  intro ls
  induction ls with
  | nil => intro n; cases n <;> rfl
  | cons l t ih =>
    intro n
    cases n with
    | zero => rfl
    | succ m =>
      unfold bioCollect
      simp only [List.map_cons]
      by_cases h : bioOk (pyStrip l)
      · rw [if_pos h, List.takeWhile_cons_of_pos h, List.take_succ_cons, ih m]
      · rw [if_neg h, List.takeWhile_cons_of_neg h, List.take_nil]

/-- C7: applied to the flyer text with an all-caps headline, the line
`Prof. Maria Rossi`, the line `Bio line one`, a digit-leading date line and a
`Dalle ore` line, speaker extraction returns exactly
`Prof. Maria Rossi` and `Bio line one` joined by a newline: the headline is
skipped, the honorific line accepted, and the bio loop keeps up to three
stripped following lines, stopping at the first line that fails its test
(here the digit-leading date line). -/
theorem C7_speaker_extraction :
    extract_speaker_from_text
        (("TITLE IN CAPS\nProf. Maria Rossi\nBio line one\n12/10/2025\nDalle ore...").data)
      = some (("Prof. Maria Rossi\nBio line one").data)
    ∧ (∀ (ls : List Str) (n : Nat),
        bioCollect n ls = ((ls.map pyStrip).takeWhile bioOk).take n) :=
  ⟨by decide, bioCollect_eq_takeWhile⟩

/-! ## Scraper row-loop lemmas (claims C4, C5, C10) -/

theorem rowStep_fst (env : ScrapeEnv) (sub : Str) (c : Option Date) (r : Row) :
    (rowStep env sub c r).1 = (rowDateUpdate r).or c := by
  unfold rowStep rowDateUpdate
  by_cases h9 : r.length < 9
  · rw [if_pos h9, if_neg (fun hh => absurd hh.1 (by omega))]
    rfl
  · rw [if_neg h9]
    by_cases hd : dateCell r = []
    · rw [if_pos hd, if_neg (fun hh => hh.2 hd)]
      rfl
    · rw [if_neg hd, if_pos ⟨by omega, hd⟩]
      cases hp : parseDate (dateCell r) with
      | none => rfl
      | some d => rfl

theorem foldDate_eq (env : ScrapeEnv) (sub : Str) :
    ∀ (rows : List Row) (c : Option Date),
      foldDate env sub c rows = (nearestCarriedDate rows).or c := by
  intro rows
  induction rows with
  | nil => intro c; rfl
  | cons r rs ih =>
    intro c
    show foldDate env sub (stepDate env sub c r) rs = _
    rw [ih]
    unfold stepDate
    rw [rowStep_fst, ← Option.or_assoc]
    rfl

theorem tableEvents_append (env : ScrapeEnv) (sub : Str) :
    ∀ (l1 l2 : List Row) (c : Option Date),
      tableEvents env sub c (l1 ++ l2)
        = tableEvents env sub c l1
          ++ tableEvents env sub (foldDate env sub c l1) l2 := by
  intro l1
  induction l1 with
  | nil => intro l2 c; rfl
  | cons r rs ih =>
    intro l2 c
    show ((rowStep env sub c r).2).toList
        ++ tableEvents env sub (rowStep env sub c r).1 (rs ++ l2) = _
    rw [ih, ← List.append_assoc]
    rfl

/-- C4: within one table, every row is processed with the carried date equal
to the parse of the nearest earlier (≥9-cell) row with a non-blank, parseable
date cell (`nearestCarriedDate` of the earlier rows, starting from none); a
blank date cell leaves the carried date unchanged for the following rows; a
non-blank parseable date cell updates it; and a blank-date row while no date
is set contributes no event. -/
theorem C4_date_carry (env : ScrapeEnv) (sub : Str) :
    (∀ (rows : List Row) (i : Nat) (hi : i < rows.length),
        tableEvents env sub none rows
          = tableEvents env sub none (rows.take i)
            ++ (rowEvent env sub (nearestCarriedDate (rows.take i))
                  (rows.get ⟨i, hi⟩)).toList
            ++ tableEvents env sub
                (stepDate env sub (nearestCarriedDate (rows.take i))
                  (rows.get ⟨i, hi⟩))
                (rows.drop (i + 1)))
    ∧ (∀ (c : Option Date) (r : Row), dateCell r = [] →
        stepDate env sub c r = c)
    ∧ (∀ (c : Option Date) (r : Row) (d : Date), 9 ≤ r.length →
        dateCell r ≠ [] → parseDate (dateCell r) = some d →
        stepDate env sub c r = some d)
    ∧ (∀ (r : Row), dateCell r = [] → rowEvent env sub none r = none) := by
  refine ⟨?_, ?_, ?_, ?_⟩
  · intro rows i hi
    conv_lhs => rw [← List.take_append_drop i rows]
    rw [List.drop_eq_getElem_cons hi, tableEvents_append env sub,
      foldDate_eq, Option.or_none]
    simp only [tableEvents, List.get_eq_getElem, rowEvent, stepDate,
      List.append_assoc]
  · intro c r hd
    unfold stepDate
    rw [rowStep_fst]
    unfold rowDateUpdate
    rw [if_neg (fun hh => hh.2 hd)]
    rfl
  · intro c r d h9 hd hp
    unfold stepDate
    rw [rowStep_fst]
    unfold rowDateUpdate
    rw [if_pos ⟨h9, hd⟩, hp]
    rfl
  · intro r hd
    unfold rowEvent rowStep
    by_cases h9 : r.length < 9
    · simp [h9]
    · rw [if_neg h9, if_pos hd]
      rfl

/-- A row is skipped when it reaches the event-building phase with no current
date, an empty time or title cell, or an unsplittable time range. -/
theorem rowEventAfterDate_none_of (env : ScrapeEnv) (sub : Str)
    (cur : Option Date) (r : Row)
    (h : cur = none ∨ timeCell r = [] ∨ titleCell r = []
      ∨ parseTimeRange (timeCell r) = none) :
    rowEventAfterDate env sub cur r = none := by
  cases cur with
  | none => rfl
  | some cd =>
    simp only [rowEventAfterDate]
    rcases h with h | h | h | h
    · exact absurd h (by simp)
    · rw [if_pos (Or.inl h)]
    · rw [if_pos (Or.inr h)]
    · by_cases ht : timeCell r = [] ∨ titleCell r = []
      · rw [if_pos ht]
      · rw [if_neg ht, h]

/-- C5: a row failing any of its row-level checks — fewer than 9 cells,
no current date, empty time-range cell, empty title cell, unparseable date,
or a time range that does not split into two `HH:MM` components — contributes
no event, and the remaining rows of the table are still processed from the
carried date the row leaves: the table is never aborted. -/
theorem C5_row_failures_skipped (env : ScrapeEnv) (sub : Str)
    (c : Option Date) (r : Row)
    (h : r.length < 9
      ∨ (dateCell r = [] ∧ c = none)
      ∨ timeCell r = []
      ∨ titleCell r = []
      ∨ (dateCell r ≠ [] ∧ parseDate (dateCell r) = none)
      ∨ parseTimeRange (timeCell r) = none) :
    rowEvent env sub c r = none
    ∧ ∀ rest : List Row,
        tableEvents env sub c (r :: rest)
          = tableEvents env sub (stepDate env sub c r) rest := by
  have hev : rowEvent env sub c r = none := by
    unfold rowEvent rowStep
    by_cases h9 : r.length < 9
    · simp [h9]
    · rw [if_neg h9]
      by_cases hd : dateCell r = []
      · rw [if_pos hd]
        show rowEventAfterDate env sub c r = none
        apply rowEventAfterDate_none_of
        rcases h with h | h | h | h | h | h
        · exact absurd h h9
        · exact Or.inl h.2
        · exact Or.inr (Or.inl h)
        · exact Or.inr (Or.inr (Or.inl h))
        · exact absurd hd h.1
        · exact Or.inr (Or.inr (Or.inr h))
      · rw [if_neg hd]
        cases hp : parseDate (dateCell r) with
        | none => rfl
        | some d =>
          show rowEventAfterDate env sub (some d) r = none
          apply rowEventAfterDate_none_of
          rcases h with h | h | h | h | h | h
          · exact absurd h h9
          · exact absurd h.1 hd
          · exact Or.inr (Or.inl h)
          · exact Or.inr (Or.inr (Or.inl h))
          · rw [h.2] at hp
            exact absurd hp (by simp)
          · exact Or.inr (Or.inr (Or.inr h))
  refine ⟨hev, ?_⟩
  intro rest
  have h2 : (rowStep env sub c r).2 = none := hev
  show ((rowStep env sub c r).2).toList
      ++ tableEvents env sub (rowStep env sub c r).1 rest = _
  rw [h2]
  rfl

/-! ## Claim C10: course and subscription fields -/

theorem rowEventAfterDate_fields (env : ScrapeEnv) (sub : Str)
    (cur : Option Date) (r : Row) (e : Event)
    (h : rowEventAfterDate env sub cur r = some e) :
    e.course = env.course ∧ e.subscription = sub := by
  cases cur with
  | none => exact absurd h (by simp [rowEventAfterDate])
  | some cd =>
    simp only [rowEventAfterDate] at h
    by_cases ht : timeCell r = [] ∨ titleCell r = []
    · rw [if_pos ht] at h
      exact absurd h (by simp)
    · rw [if_neg ht] at h
      cases hp : parseTimeRange (timeCell r) with
      | none =>
        rw [hp] at h
        exact absurd h (by simp)
      | some tt =>
        obtain ⟨t1, t2⟩ := tt
        rw [hp] at h
        injection h with h2
        subst h2
        exact ⟨rfl, rfl⟩

theorem rowStep_snd_some (env : ScrapeEnv) (sub : Str) (c : Option Date)
    (r : Row) (e : Event) (h : (rowStep env sub c r).2 = some e) :
    ∃ cur, rowEventAfterDate env sub cur r = some e := by
  unfold rowStep at h
  by_cases h9 : r.length < 9
  · rw [if_pos h9] at h
    exact absurd h (by simp)
  · rw [if_neg h9] at h
    cases hs : (if dateCell r = [] then some c
                else (parseDate (dateCell r)).map some) with
    | none =>
      rw [hs] at h
      exact absurd h (by simp)
    | some cur =>
      rw [hs] at h
      exact ⟨cur, h⟩

theorem tableEvents_fields (env : ScrapeEnv) (sub : Str) :
    ∀ (rows : List Row) (c : Option Date) (e : Event),
      e ∈ tableEvents env sub c rows →
      e.course = env.course ∧ e.subscription = sub := by
  intro rows
  induction rows with
  | nil => intro c e he; simp [tableEvents] at he
  | cons r rs ih =>
    intro c e he
    simp only [tableEvents] at he
    rcases List.mem_append.mp he with h1 | h1
    · have h2 : (rowStep env sub c r).2 = some e := by
        cases hx : (rowStep env sub c r).2 with
        | none => rw [hx] at h1; simp at h1
        | some ev =>
          rw [hx] at h1
          simp at h1
          rw [h1]
      obtain ⟨cur, hc⟩ := rowStep_snd_some env sub c r e h2
      exact rowEventAfterDate_fields env sub cur r e hc
    · exact ih (rowStep env sub c r).1 e h1

theorem scrapePage_fields (env : ScrapeEnv) :
    ∀ (page : List Heading) (e : Event),
      e ∈ (scrapePage env page).1 →
      e.course = env.course ∧ e.subscription ∈ (scrapePage env page).2 := by
  intro page
  induction page with
  | nil => intro e he; simp [scrapePage] at he
  | cons h hs ih =>
    intro e he
    unfold scrapePage at he ⊢
    by_cases hacc : h.title = [] ∨ ¬ (env.course ++ [' ']).isPrefixOf h.title
    · rw [if_pos hacc] at he ⊢
      exact ih e he
    · rw [if_neg hacc] at he ⊢
      rcases List.mem_append.mp he with h1 | h1
      · unfold headingEvents at h1
        cases hta : h.table with
        | none =>
          rw [hta] at h1
          simp at h1
        | some rows =>
          rw [hta] at h1
          obtain ⟨hc, hsub⟩ := tableEvents_fields env h.title (rows.drop 1) none e h1
          exact ⟨hc, by rw [hsub]; exact List.mem_cons_self _ _⟩
      · obtain ⟨hc, hsub⟩ := ih e h1
        exact ⟨hc, List.mem_cons_of_mem _ hsub⟩

/-- C10: every event returned by `scrape_calendar(url, course)` carries
`course` as its course field, and a subscription field that is one of the
labels in the returned subscriptions list. -/
theorem C10_event_fields_invariant
    (fetchPage : Str → Option (List Heading))
    (fetchLoc fetchSpeaker : Str → Option Str) (url course : Str) (e : Event)
    (he : e ∈ (scrape_calendar fetchPage fetchLoc fetchSpeaker url course).1) :
    e.course = course
    ∧ e.subscription
        ∈ (scrape_calendar fetchPage fetchLoc fetchSpeaker url course).2 := by
  revert he
  unfold scrape_calendar
  cases fetchPage url with
  | none =>
    intro he
    exact absurd he (List.not_mem_nil e)
  | some page =>
    intro he
    exact scrapePage_fields ⟨url, course, fetchLoc, fetchSpeaker⟩ page e he

/-- Witness for C4: the two-row table, its blank-date second row, and the
dated first row. -/
theorem C4_date_carry_witness :
    (tableEvents wEnv wSub none wRows
      = tableEvents wEnv wSub none (wRows.take 1)
        ++ (rowEvent wEnv wSub (nearestCarriedDate (wRows.take 1))
              (wRows.get ⟨1, by decide⟩)).toList
        ++ tableEvents wEnv wSub
            (stepDate wEnv wSub (nearestCarriedDate (wRows.take 1))
              (wRows.get ⟨1, by decide⟩))
            (wRows.drop 2))
    ∧ stepDate wEnv wSub (some ⟨2025, 10, 12⟩) wRow1 = some ⟨2025, 10, 12⟩
    ∧ stepDate wEnv wSub none wRow0 = some ⟨2025, 10, 12⟩
    ∧ rowEvent wEnv wSub none wRow1 = none :=
  ⟨(C4_date_carry wEnv wSub).1 wRows 1 (by decide),
    (C4_date_carry wEnv wSub).2.1 (some ⟨2025, 10, 12⟩) wRow1 (by decide),
    (C4_date_carry wEnv wSub).2.2.1 none wRow0 ⟨2025, 10, 12⟩ (by decide)
      (by decide) (by decide),
    (C4_date_carry wEnv wSub).2.2.2 wRow1 (by decide)⟩

/-- Witness for C5: a 3-cell row contributes nothing and its table continues. -/
theorem C5_row_failures_skipped_witness :
    rowEvent wEnv wSub none wShortRow = none
    ∧ tableEvents wEnv wSub none (wShortRow :: wRows)
        = tableEvents wEnv wSub (stepDate wEnv wSub none wShortRow) wRows :=
  ⟨(C5_row_failures_skipped wEnv wSub none wShortRow (Or.inl (by decide))).1,
    (C5_row_failures_skipped wEnv wSub none wShortRow (Or.inl (by decide))).2 wRows⟩

/-- Witness for C10 at a concrete page yielding one event. -/
theorem C10_event_fields_invariant_witness :
    wEvent.course = ("ISB".data)
    ∧ wEvent.subscription
        ∈ (scrape_calendar wFetchPage (fun _ => none) (fun _ => none)
            ("https://ianua.unige.it/cal".data) ("ISB".data)).2 :=
  C10_event_fields_invariant wFetchPage (fun _ => none) (fun _ => none)
    ("https://ianua.unige.it/cal".data) ("ISB".data) wEvent (by decide)

end IANUACalDav
